import Mathlib

/-!
Shallow embedding of `src/cell_pool.rs` from the RustDataModelling repository:
a fixed-capacity slot pool (`CellPool<T>`) with two intrusive index-linked
lists (a free list and a live list) over the same index space.

Modelling conventions:
* `Vec<T>` fields become Lean `List`s; `Cell<Index>` fields become plain `Nat`
  fields (the pool is single-threaded, so interior mutability is just
  sequential state update).
* `self.items.capacity()` (the sentinel value used throughout the Rust code)
  is modelled as `st.items.length`: the constructor pushes exactly `capacity`
  default elements into a `Vec` created by `Vec::with_capacity(capacity)`.
* Every Rust indexing operation `v[i]` carries a bounds check against the
  vector's length; an out-of-bounds index panics.  We model reads with
  `l[i]?` and guard writes explicitly; a panic is the `oob` outcome.
* `decr(&self.size)` uses `usize` subtraction, which panics on underflow in a
  debug build; we model the underflow case as the `oob` (panic) outcome too.
* References returned by `alloc` / passed to `free` are identified by their
  offset from the backing store's base (`offset_from` in the Rust code), so
  the model passes slot indices (`Nat` out of `alloc`, `Int` into `free`).
-/

namespace CellPool

/-- Pool state: direct image of the fields of `CellPool<T>` in
`src/cell_pool.rs` (lines 6-14). -/
structure PoolState (α : Type) where
  items : List α
  prev : List Nat
  next : List Nat
  first_free : Nat
  first : Nat
  last : Nat
  size : Nat
deriving Repr, DecidableEq

/-- Result of a pool operation that in Rust returns
`Result<V, &'static str>` on a `&self` receiver: `ok` carries the state after
the in-place mutations and the returned value, `err` carries the error string
and the state at the moment of the early return, `oob` is a Rust panic
(out-of-bounds `Vec` index or `usize` underflow). -/
inductive PoolRes (σ : Type) (ρ : Type) where
  | ok (st : σ) (val : ρ)
  | err (msg : String) (st : σ)
  | oob
deriving Repr, DecidableEq

/-- `CellPool::new(capacity)` (lines 17-35): `capacity` default elements, all
`prev` links set to the sentinel `capacity`, `next` links chaining slot `i` to
`i+1` (so the whole index range is the initial free list), `first_free`,
`first`, `last`, `size` all `0`. -/
def new (cap : Nat) (d : α) : PoolState α :=
  { items := List.replicate cap d
    prev := List.replicate cap cap
    next := (List.range cap).map (· + 1)
    first_free := 0
    first := 0
    last := 0
    size := 0 }

/-- `CellPool::alloc` (lines 39-63).  Mirrors the Rust statement order:
capacity guard, pop of the free-list head, append at the live-list tail
(`next[last] := index`, `prev[index] := last`, `next[index] := capacity`,
`last := index`), `first := index` when the pool was empty, size increment,
and the final `&self.items[index]` (whose bounds check we keep). -/
def alloc (st : PoolState α) : PoolRes (PoolState α) Nat :=
  if st.items.length ≤ st.size then .err "Pool empty!" st
  else
    (st.next[st.first_free]?).elim .oob fun nx =>
      if st.next.length ≤ st.last then .oob
      else if st.prev.length ≤ st.first_free then .oob
      else if (st.next.set st.last st.first_free).length ≤ st.first_free then .oob
      else if st.items.length ≤ st.first_free then .oob
      else
        .ok { items := st.items
              prev := st.prev.set st.first_free st.last
              next := (st.next.set st.last st.first_free).set st.first_free
                st.items.length
              first_free := nx
              first := if st.size = 0 then st.first_free else st.first
              last := st.first_free
              size := st.size + 1 } st.first_free

/-- `CellPool::free` (lines 74-110).  The reference is passed as its offset
`si` from `&self.items[0]`; the Rust code first evaluates `&self.items[0]`
(panics on an empty backing store), then checks `si < 0`, then reads
`prev[i]` (bounds-checked), checks the double-free guard `prev[i] >=
capacity`, reads `next[i]`, patches `next[p]` and `prev[n]`, fixes `first` /
`last` endpoints, pushes the slot on the free list and decrements `size`. -/
def free (st : PoolState α) (si : Int) : PoolRes (PoolState α) Unit :=
  if st.items.length = 0 then .oob
  else if si < 0 then .err "Invalid item!" st
  else
    (st.prev[si.toNat]?).elim .oob fun p =>
      if st.items.length ≤ p then .err "Item already freed!" st
      else
        (st.next[si.toNat]?).elim .oob fun n =>
          if st.next.length ≤ p then .oob
          else if st.prev.length ≤ n then .oob
          else if (st.prev.set n p).length ≤ si.toNat then .oob
          else if (st.next.set p n).length ≤ si.toNat then .oob
          else if st.size = 0 then .oob
          else
            .ok { items := st.items
                  prev := (st.prev.set n p).set si.toNat st.items.length
                  next := (st.next.set p n).set si.toNat st.first_free
                  first_free := si.toNat
                  first := if si.toNat = st.first then n else st.first
                  last := if si.toNat = st.last then p else st.last
                  size := st.size - 1 } ()

/-- Traversal of an index chain through `next`, starting at `i`, stopping at
any index `≥ items.length` (the sentinel test `i >= self.pool.items.capacity()`
of `PoolIter::next`, lines 142-151).  `fuel` bounds the number of steps;
`none` means the fuel ran out (or a `next` read went out of bounds), so a
`some` result is exactly what a terminating traversal of the Rust iterator
yields. -/
def chainFrom (st : PoolState α) : Nat → Nat → Option (List Nat)
  | 0, _ => none
  | f + 1, i =>
    if st.items.length ≤ i then some []
    else (st.next[i]?).elim none fun n => (chainFrom st f n).map (i :: ·)

/-- `CellPool::iter` (lines 65-70) followed by a full traversal: the iterator
starts at `first` and follows `next` links. The yielded references are
`&items[i]` for the produced indices. -/
def iterFrom (st : PoolState α) (fuel : Nat) : Option (List Nat) :=
  chainFrom st fuel st.first

/-- The (terminating) full traversal of the pool's iterator yields exactly the
index sequence `L`. -/
def IterYields (st : PoolState α) (L : List Nat) : Prop :=
  ∃ fuel, iterFrom st fuel = some L

/-- The free list read off the state: the `next`-chain starting at
`first_free` (spec: `free_head`). -/
def freeChain (st : PoolState α) (fuel : Nat) : Option (List Nat) :=
  chainFrom st fuel st.first_free

/-- `Clear for CellPool` (lines 113-132): reset every element with the
element type's `clear` (modelled by the function `cf`), set every `prev` link
to the sentinel, re-chain `next[i] := i+1`, zero the four index fields. -/
def clearPool (cf : α → α) (st : PoolState α) : PoolState α :=
  { items := st.items.map cf
    prev := st.prev.map (fun _ => st.items.length)
    next := (List.range st.next.length).map (· + 1)
    first_free := 0
    first := 0
    last := 0
    size := 0 }

/-- A caller writing a value through the reference returned by `alloc`
(e.g. `Player::init` in `src/cell.rs` storing a name): the pool's backing
store is mutated at that slot, outside any pool method. -/
def writeItem (st : PoolState α) (i : Nat) (a : α) : PoolState α :=
  { st with items := st.items.set i a }

/-- The pool state reached from `new N d` by `k` successful `alloc` calls
(for `k ≤ N`): slots `0 .. k-1` are live in index order (slot `0` keeps the
stale `prev` link `0` to itself, written by the very first `alloc` from the
initial `last = 0`), slots `k .. N-1` still carry the initial free-chain
links. -/
def stK (N : Nat) (d : α) (k : Nat) : PoolState α :=
  { items := List.replicate N d
    prev := (List.range N).map (fun i => if i < k then i - 1 else N)
    next := (List.range N).map (fun i => if i + 1 = k then N else i + 1)
    first_free := k
    first := 0
    last := k - 1
    size := k }

/-- The pool state reached from `new cap d` (for `cap ≥ 3`) by three `alloc`
calls followed by `free` of the middle slot `1`. -/
def stMid (cap : Nat) (d : α) : PoolState α :=
  { items := List.replicate cap d
    prev := (List.range cap).map (fun i => if i = 0 ∨ i = 2 then 0 else cap)
    next := (List.range cap).map (fun i =>
      if i = 0 then 2 else if i = 1 then 3 else if i = 2 then cap else i + 1)
    first_free := 1
    first := 0
    last := 2
    size := 2 }

/-- Capacity-1 pool after a single `alloc`: slot `0` is the only live slot,
hence both the live head and the live tail. -/
def oneLive : PoolState Unit := ⟨[()], [0], [1], 1, 0, 0, 1⟩

/-- Snapshot after `alloc` on `new 3 ()`. -/
def chain1 : PoolState Unit := ⟨[(), (), ()], [0, 3, 3], [3, 2, 3], 1, 0, 0, 1⟩

/-- Snapshot after two `alloc`s on `new 3 ()`. -/
def chain2 : PoolState Unit := ⟨[(), (), ()], [0, 0, 3], [1, 3, 3], 2, 0, 1, 2⟩

/-- Snapshot after three `alloc`s on `new 3 ()`. -/
def chain3 : PoolState Unit := ⟨[(), (), ()], [0, 0, 1], [1, 2, 3], 3, 0, 2, 3⟩

/-- Snapshot after three `alloc`s and `free 0` (release of the live head). -/
def chain4 : PoolState Unit := ⟨[(), (), ()], [3, 0, 1], [3, 2, 3], 0, 1, 2, 2⟩

/-- Snapshot after three `alloc`s, `free 0`, `free 1`: both `free` calls
returned `Ok`, yet the free chain `1 → 0 → 2` now runs through the live slot
`2` (the `next[p]` patch in `free` wrote through slot `1`'s stale `prev`
link into the free slot `0`). -/
def chain5 : PoolState Unit := ⟨[(), (), ()], [3, 3, 0], [2, 0, 3], 1, 2, 2, 1⟩

/-- String pool of capacity 3 after three `alloc`s, with the caller having
written `"Tom"` through the second returned reference. -/
def tomPool : PoolState String := ⟨["", "Tom", ""], [0, 0, 1], [1, 2, 3], 3, 0, 2, 3⟩

/-- State after `free` of slot `1` on `tomPool`: the stored string is still
`"Tom"`. -/
def tomFreed : PoolState String := ⟨["", "Tom", ""], [0, 3, 0], [2, 3, 3], 1, 0, 2, 2⟩

/-- State after a further `alloc` on `tomFreed`: the freed slot `1` is reused
and its storage still reads `"Tom"` before any caller re-initialization. -/
def tomRealloc : PoolState String :=
  ⟨["", "Tom", ""], [0, 2, 0], [2, 3, 1], 3, 0, 1, 3⟩

end CellPool

namespace CellPool

/-! ## Helper lemmas -/

/-- Chain traversal is monotone in fuel: once the traversal terminates with a
result, more fuel gives the same result. -/
theorem chainFrom_mono (st : PoolState α) :
    ∀ {f f' i L}, chainFrom st f i = some L → f ≤ f' → chainFrom st f' i = some L := by
  intro f
  induction f with
  | zero => intro f' i L h _; simp [chainFrom] at h
  | succ f ih =>
    intro f' i L h hle
    obtain ⟨g, rfl⟩ : ∃ g, f' = g + 1 := ⟨f' - 1, by omega⟩
    rw [chainFrom] at h ⊢
    by_cases hc : st.items.length ≤ i
    · rw [if_pos hc] at h ⊢; exact h
    · rw [if_neg hc] at h ⊢
      cases hn : st.next[i]? with
      | none => rw [hn, Option.elim_none] at h; exact absurd h (by simp)
      | some n =>
        rw [hn, Option.elim_some] at h
        rw [Option.elim_some]
        cases hcf : chainFrom st f n with
        | none => rw [hcf] at h; simp at h
        | some L' => rw [ih hcf (by omega)]; rw [hcf] at h; exact h

/-- A terminating full traversal of the iterator is unique. -/
theorem iterYields_unique (st : PoolState α) {L₁ L₂ : List Nat}
    (h₁ : IterYields st L₁) (h₂ : IterYields st L₂) : L₁ = L₂ := by
  obtain ⟨f₁, h₁⟩ := h₁
  obtain ⟨f₂, h₂⟩ := h₂
  unfold iterFrom at h₁ h₂
  have e₁ := chainFrom_mono st h₁ (Nat.le_max_left f₁ f₂)
  have e₂ := chainFrom_mono st h₂ (Nat.le_max_right f₁ f₂)
  rw [e₁] at e₂
  exact Option.some_injective _ e₂

/-- Zero allocations: `stK` at `k = 0` is the freshly constructed pool. -/
theorem stK_zero (N : Nat) (d : α) : stK N d 0 = new N d := by
  unfold stK new
  simp [List.map_const']

/-- Effect of one `alloc` on the `prev` array of the `k`-allocation state. -/
theorem stK_prev_step (N k : Nat) (hk : k < N) :
    ((List.range N).map fun i => if i < k then i - 1 else N).set k (k - 1) =
      (List.range N).map fun i => if i < k + 1 then i - 1 else N := by
  apply List.ext_getElem?
  intro j
  by_cases hj : j < N
  · simp only [List.getElem?_set, List.length_map, List.length_range,
      List.getElem?_map, List.getElem?_range hj, Option.map_some']
    split_ifs <;> first | rfl | omega | (simp only [Option.some.injEq]; omega)
  · rw [List.getElem?_set_ne (by omega),
      List.getElem?_eq_none (by simp only [List.length_map, List.length_range]; omega),
      List.getElem?_eq_none (by simp only [List.length_map, List.length_range]; omega)]

/-- Effect of one `alloc` on the `next` array of the `k`-allocation state. -/
theorem stK_next_step (N k : Nat) (hk : k < N) :
    (((List.range N).map fun i => if i + 1 = k then N else i + 1).set (k - 1) k).set k N =
      (List.range N).map fun i => if i + 1 = k + 1 then N else i + 1 := by
  apply List.ext_getElem?
  intro j
  by_cases hj : j < N
  · simp only [List.getElem?_set, List.length_set, List.length_map, List.length_range,
      List.getElem?_map, List.getElem?_range hj, Option.map_some']
    split_ifs <;> first | rfl | omega | (simp only [Option.some.injEq]; omega)
  · rw [List.getElem?_set_ne (by omega), List.getElem?_set_ne (by omega),
      List.getElem?_eq_none (by simp only [List.length_map, List.length_range]; omega),
      List.getElem?_eq_none (by simp only [List.length_map, List.length_range]; omega)]

/-- One allocation step: from the `k`-allocation state with `k < N`, `alloc`
succeeds, returns slot `k`, and yields the `(k+1)`-allocation state. -/
theorem alloc_stK (N : Nat) (d : α) (k : Nat) (hk : k < N) :
    alloc (stK N d k) = .ok (stK N d (k + 1)) k := by
  unfold alloc stK
  simp only [List.length_replicate, List.length_map, List.length_range, List.length_set]
  rw [if_neg (by omega : ¬ N ≤ k)]
  rw [show ((List.range N).map fun i => if i + 1 = k then N else i + 1)[k]? =
      some (k + 1) by
    rw [List.getElem?_map, List.getElem?_range hk, Option.map_some']
    simp only [Option.some.injEq]
    split_ifs <;> omega]
  rw [Option.elim_some]
  rw [if_neg (by omega : ¬ N ≤ k - 1), if_neg (by omega : ¬ N ≤ k),
    if_neg (by omega : ¬ N ≤ k), if_neg (by omega : ¬ N ≤ k)]
  congr 1
  refine PoolState.mk.injEq .. |>.mpr ?_
  refine ⟨rfl, stK_prev_step N k hk, stK_next_step N k hk, rfl, ?_, ?_, rfl⟩
  · split_ifs <;> omega
  · omega


/-- Reading a mapped range list at an in-bounds index. -/
theorem getElem?_map_range {f : Nat → Nat} {n j : Nat} (hj : j < n) :
    ((List.range n).map f)[j]? = some (f j) := by
  rw [List.getElem?_map, List.getElem?_range hj, Option.map_some']

/-- One step of chain traversal at a non-sentinel index. -/
theorem chainFrom_step (st : PoolState α) (f i n : Nat) (hi : ¬ st.items.length ≤ i)
    (hn : st.next[i]? = some n) :
    chainFrom st (f + 1) i = (chainFrom st f n).map (i :: ·) := by
  rw [chainFrom, if_neg hi, hn, Option.elim_some]

/-- Chain traversal stops at a sentinel index (`≥ capacity`). -/
theorem chainFrom_end (st : PoolState α) (f i : Nat) (hi : st.items.length ≤ i) :
    chainFrom st (f + 1) i = some [] := by
  rw [chainFrom, if_pos hi]

/-- Effect of `free 1` on the `prev` array of the three-allocation state. -/
theorem stMid_prev_eq (cap : Nat) (h3 : 3 ≤ cap) :
    (((List.range cap).map fun i => if i < 3 then i - 1 else cap).set 2 0).set 1 cap =
      (List.range cap).map fun i => if i = 0 ∨ i = 2 then 0 else cap := by
  apply List.ext_getElem?
  intro j
  by_cases hj : j < cap
  · simp only [List.getElem?_set, List.length_set, List.length_map, List.length_range,
      List.getElem?_map, List.getElem?_range hj, Option.map_some']
    split_ifs <;>
      first
        | rfl
        | omega
        | (simp only [Option.some.injEq]; omega)
  · rw [List.getElem?_set_ne (by omega), List.getElem?_set_ne (by omega),
      List.getElem?_eq_none (by simp only [List.length_map, List.length_range]; omega),
      List.getElem?_eq_none (by simp only [List.length_map, List.length_range]; omega)]

/-- Effect of `free 1` on the `next` array of the three-allocation state. -/
theorem stMid_next_eq (cap : Nat) (h3 : 3 ≤ cap) :
    (((List.range cap).map fun i => if i + 1 = 3 then cap else i + 1).set 0 2).set 1 3 =
      (List.range cap).map fun i =>
        if i = 0 then 2 else if i = 1 then 3 else if i = 2 then cap else i + 1 := by
  apply List.ext_getElem?
  intro j
  by_cases hj : j < cap
  · simp only [List.getElem?_set, List.length_set, List.length_map, List.length_range,
      List.getElem?_map, List.getElem?_range hj, Option.map_some']
    split_ifs <;>
      first
        | rfl
        | omega
  · rw [List.getElem?_set_ne (by omega), List.getElem?_set_ne (by omega),
      List.getElem?_eq_none (by simp only [List.length_map, List.length_range]; omega),
      List.getElem?_eq_none (by simp only [List.length_map, List.length_range]; omega)]

/-- Releasing the middle slot `1` of the three-allocation state succeeds and
yields `stMid` (this release is neither of the live head nor of the live
tail, so none of the stale-link hazards fire). -/
theorem free_stK3 (cap : Nat) (d : α) (h3 : 3 ≤ cap) :
    free (stK cap d 3) 1 = .ok (stMid cap d) () := by
  unfold free stK stMid
  simp only [List.length_replicate, List.length_map, List.length_range, List.length_set,
    Int.toNat_one]
  rw [if_neg (by omega : ¬ cap = 0), if_neg (by norm_num : ¬ (1:Int) < 0)]
  rw [getElem?_map_range (by omega : (1:Nat) < cap)]
  rw [show (if (1:Nat) < 3 then 1 - 1 else cap) = 0 by norm_num, Option.elim_some]
  rw [if_neg (by omega : ¬ cap ≤ 0)]
  rw [getElem?_map_range (by omega : (1:Nat) < cap)]
  rw [show (if (1:Nat) + 1 = 3 then cap else 1 + 1) = 2 by norm_num, Option.elim_some]
  rw [if_neg (by omega : ¬ cap ≤ 0), if_neg (by omega : ¬ cap ≤ 2),
    if_neg (by omega : ¬ cap ≤ 1), if_neg (by omega : ¬ cap ≤ 1),
    if_neg (by norm_num : ¬ (3:Nat) = 0)]
  congr 1
  refine PoolState.mk.injEq .. |>.mpr ?_
  exact ⟨rfl, stMid_prev_eq cap h3, stMid_next_eq cap h3, rfl, by norm_num, by norm_num, rfl⟩


/-- Full iterator traversal of the three-allocation state: slots 0, 1, 2 in
allocation order. -/
theorem iter_stK3 (cap : Nat) (d : α) (h3 : 3 ≤ cap) :
    iterFrom (stK cap d 3) 4 = some [0, 1, 2] := by
  have hlen : (stK cap d 3).items.length = cap := by simp [stK]
  unfold iterFrom
  rw [show (stK cap d 3).first = 0 from rfl]
  rw [chainFrom_step _ 3 0 1 (by rw [hlen]; omega) (by
    show ((List.range cap).map fun i => if i + 1 = 3 then cap else i + 1)[0]? = some 1
    rw [getElem?_map_range (by omega)]; norm_num)]
  rw [chainFrom_step _ 2 1 2 (by rw [hlen]; omega) (by
    show ((List.range cap).map fun i => if i + 1 = 3 then cap else i + 1)[1]? = some 2
    rw [getElem?_map_range (by omega)]; norm_num)]
  rw [chainFrom_step _ 1 2 cap (by rw [hlen]; omega) (by
    show ((List.range cap).map fun i => if i + 1 = 3 then cap else i + 1)[2]? = some cap
    rw [getElem?_map_range (by omega)]; norm_num)]
  rw [chainFrom_end _ 0 cap (by rw [hlen])]
  simp [Option.map_some']

/-- Full iterator traversal after releasing the middle slot: slots 0 and 2,
still in allocation order. -/
theorem iter_stMid (cap : Nat) (d : α) (h3 : 3 ≤ cap) :
    iterFrom (stMid cap d) 3 = some [0, 2] := by
  have hlen : (stMid cap d).items.length = cap := by simp [stMid]
  unfold iterFrom
  rw [show (stMid cap d).first = 0 from rfl]
  rw [chainFrom_step _ 2 0 2 (by rw [hlen]; omega) (by
    show ((List.range cap).map fun i =>
      if i = 0 then 2 else if i = 1 then 3 else if i = 2 then cap else i + 1)[0]? = some 2
    rw [getElem?_map_range (by omega)]; norm_num)]
  rw [chainFrom_step _ 1 2 cap (by rw [hlen]; omega) (by
    show ((List.range cap).map fun i =>
      if i = 0 then 2 else if i = 1 then 3 else if i = 2 then cap else i + 1)[2]? = some cap
    rw [getElem?_map_range (by omega)]; norm_num)]
  rw [chainFrom_end _ 0 cap (by rw [hlen])]
  simp [Option.map_some']

/-- Inversion of a successful `free`: the guards that were passed and the
exact resulting state. -/
theorem free_ok_inversion (st : PoolState α) (si : Int) (st' : PoolState α)
    (h : free st si = .ok st' ()) :
    0 ≤ si ∧ st.items.length ≠ 0 ∧ 0 < st.size ∧
    ∃ p n, st.prev[si.toNat]? = some p ∧ st.next[si.toNat]? = some n ∧
      p < st.items.length ∧ p < st.next.length ∧ n < st.prev.length ∧
      st' = { items := st.items
              prev := (st.prev.set n p).set si.toNat st.items.length
              next := (st.next.set p n).set si.toNat st.first_free
              first_free := si.toNat
              first := if si.toNat = st.first then n else st.first
              last := if si.toNat = st.last then p else st.last
              size := st.size - 1 } := by
  unfold free at h
  by_cases h0 : st.items.length = 0
  · rw [if_pos h0] at h; exact absurd h (by simp)
  · rw [if_neg h0] at h
    by_cases hsi : si < 0
    · rw [if_pos hsi] at h; exact absurd h (by simp)
    · rw [if_neg hsi] at h
      cases hp : st.prev[si.toNat]? with
      | none => rw [hp, Option.elim_none] at h; exact absurd h (by simp)
      | some p =>
        rw [hp, Option.elim_some] at h
        by_cases hpc : st.items.length ≤ p
        · rw [if_pos hpc] at h; exact absurd h (by simp)
        · rw [if_neg hpc] at h
          cases hn : st.next[si.toNat]? with
          | none => rw [hn, Option.elim_none] at h; exact absurd h (by simp)
          | some n =>
            rw [hn, Option.elim_some] at h
            by_cases h1 : st.next.length ≤ p
            · rw [if_pos h1] at h; exact absurd h (by simp)
            · rw [if_neg h1] at h
              by_cases h2 : st.prev.length ≤ n
              · rw [if_pos h2] at h; exact absurd h (by simp)
              · rw [if_neg h2] at h
                by_cases h3 : (st.prev.set n p).length ≤ si.toNat
                · rw [if_pos h3] at h; exact absurd h (by simp)
                · rw [if_neg h3] at h
                  by_cases h4 : (st.next.set p n).length ≤ si.toNat
                  · rw [if_pos h4] at h; exact absurd h (by simp)
                  · rw [if_neg h4] at h
                    by_cases h5 : st.size = 0
                    · rw [if_pos h5] at h; exact absurd h (by simp)
                    · rw [if_neg h5] at h
                      refine ⟨by omega, h0, by omega, p, n, rfl, rfl, by omega,
                        by omega, by omega, ?_⟩
                      injection h with h' _
                      exact h'.symm

/-- Inversion of a failing `free`: every error return leaves the pool state
untouched (both error paths precede all mutations in the source). -/
theorem free_err_inversion (st : PoolState α) (si : Int) (e : String)
    (stE : PoolState α) (h : free st si = .err e stE) : stE = st := by
  unfold free at h
  by_cases h0 : st.items.length = 0
  · rw [if_pos h0] at h; exact absurd h (by simp)
  · rw [if_neg h0] at h
    by_cases hsi : si < 0
    · rw [if_pos hsi] at h
      injection h with _ h'; exact h'.symm
    · rw [if_neg hsi] at h
      cases hp : st.prev[si.toNat]? with
      | none => rw [hp, Option.elim_none] at h; exact absurd h (by simp)
      | some p =>
        rw [hp, Option.elim_some] at h
        by_cases hpc : st.items.length ≤ p
        · rw [if_pos hpc] at h
          injection h with _ h'; exact h'.symm
        · rw [if_neg hpc] at h
          cases hn : st.next[si.toNat]? with
          | none => rw [hn, Option.elim_none] at h; exact absurd h (by simp)
          | some n =>
            rw [hn, Option.elim_some] at h
            split_ifs at h

/-- Inversion of a successful `alloc`: the returned reference is the popped
free-list head, and the exact resulting state. -/
theorem alloc_ok_inversion (st : PoolState α) (st' : PoolState α) (idx : Nat)
    (h : alloc st = .ok st' idx) :
    idx = st.first_free ∧ st.size < st.items.length ∧
    st.first_free < st.prev.length ∧ st.last < st.next.length ∧
    st.first_free < st.items.length ∧
    ∃ nx, st.next[st.first_free]? = some nx ∧
      st' = { items := st.items
              prev := st.prev.set st.first_free st.last
              next := (st.next.set st.last st.first_free).set st.first_free
                st.items.length
              first_free := nx
              first := if st.size = 0 then st.first_free else st.first
              last := st.first_free
              size := st.size + 1 } := by
  unfold alloc at h
  by_cases hg : st.items.length ≤ st.size
  · rw [if_pos hg] at h; exact absurd h (by simp)
  · rw [if_neg hg] at h
    cases hnx : st.next[st.first_free]? with
    | none => rw [hnx, Option.elim_none] at h; exact absurd h (by simp)
    | some nx =>
      rw [hnx, Option.elim_some] at h
      by_cases h1 : st.next.length ≤ st.last
      · rw [if_pos h1] at h; exact absurd h (by simp)
      · rw [if_neg h1] at h
        by_cases h2 : st.prev.length ≤ st.first_free
        · rw [if_pos h2] at h; exact absurd h (by simp)
        · rw [if_neg h2] at h
          by_cases h3 : (st.next.set st.last st.first_free).length ≤ st.first_free
          · rw [if_pos h3] at h; exact absurd h (by simp)
          · rw [if_neg h3] at h
            by_cases h4 : st.items.length ≤ st.first_free
            · rw [if_pos h4] at h; exact absurd h (by simp)
            · rw [if_neg h4] at h
              simp only [List.length_set] at h3
              injection h with h' hidx
              exact ⟨hidx.symm, by omega, by omega, by omega, by omega, nx, rfl, h'.symm⟩

/-- Inversion of a failing `alloc`: the only error is the capacity guard,
which fires exactly when `size` has reached the backing store's length and
leaves the state untouched. -/
theorem alloc_err_inversion (st : PoolState α) (e : String) (stE : PoolState α)
    (h : alloc st = .err e stE) :
    e = "Pool empty!" ∧ stE = st ∧ st.items.length ≤ st.size := by
  unfold alloc at h
  by_cases hg : st.items.length ≤ st.size
  · rw [if_pos hg] at h
    injection h with h1 h2
    exact ⟨h1.symm, h2.symm, hg⟩
  · rw [if_neg hg] at h
    cases hnx : st.next[st.first_free]? with
    | none => rw [hnx, Option.elim_none] at h; exact absurd h (by simp)
    | some nx =>
      rw [hnx, Option.elim_some] at h
      split_ifs at h



/-- Allocation on the full `N`-allocation state fails on the capacity guard
before touching any array. -/
theorem alloc_stK_full (N : Nat) (d : α) :
    alloc (stK N d N) = .err "Pool empty!" (stK N d N) := by
  unfold alloc
  rw [if_pos (by simp [stK] : (stK N d N).items.length ≤ (stK N d N).size)]

/-! ## Claims -/

/-- **C1** (code-bug evidence). The claim says every currently-live slot —
in particular the live tail — can be released with `Ok` and no out-of-bounds
access.  On a capacity-1 pool, `alloc` returns slot `0` (the live tail,
whose `next` link is the sentinel `capacity`); `free` of that slot reaches
the unguarded `self.prev[n].set(p)` with `n = capacity`, an out-of-bounds
index into the length-`capacity` `prev` vector: a panic, not `Ok`. -/
theorem c1_release_of_live_tail_panics :
    alloc (new 1 ()) = .ok oneLive 0 ∧ free oneLive 0 = .oob := by
  exact ⟨rfl, rfl⟩

/-- **C2** (code-bug evidence). The claim says a successful release invokes
the element's reset capability before returning, so the slot's storage reads
empty when observed or reused.  In the code `CellPool::free` requires
`T: Clear` but never calls `clear`: after three allocations with `"Tom"`
written into slot `1`, releasing slot `1` succeeds yet the storage still
reads `"Tom"`, and the next `alloc` hands that same slot back still holding
`"Tom"`. -/
theorem c2_release_skips_reset :
    free tomPool 1 = .ok tomFreed () ∧ tomFreed.items[1]? = some "Tom" ∧
    alloc tomFreed = .ok tomRealloc 1 ∧ tomRealloc.items[1]? = some "Tom" := by
  exact ⟨rfl, rfl, rfl, rfl⟩

/-- **C3** (code-bug evidence). The claim says iterating a pool of size 0
(freshly constructed or just cleared) yields the empty sequence.  The
iterator starts at `first`, which is `0` in both states, and only stops at an
index `≥ capacity`, so it walks the entire initial free chain: on a fresh or
cleared capacity-3 pool it yields all three slots instead of none. -/
theorem c3_empty_pool_iteration_yields_all_slots :
    (new 3 (0 : Nat)).size = 0 ∧ iterFrom (new 3 (0 : Nat)) 4 = some [0, 1, 2] ∧
    (clearPool id (new 3 (0 : Nat))).size = 0 ∧
    iterFrom (clearPool id (new 3 (0 : Nat))) 4 = some [0, 1, 2] := by
  exact ⟨rfl, rfl, rfl, rfl⟩

/-- **C4** (code-bug evidence). The claim says every reachable state
partitions the indices between the free and the live list, with lengths
summing to the capacity.  The `Ok`-only sequence alloc, alloc, alloc,
free 0, free 1 on a capacity-3 pool releases the live head twice; the second
release patches `next` through the head's stale `prev` link into the free
slot `0`, after which the free chain is `[1, 0, 2]` and the live chain `[2]`:
slot `2` is on both lists and the lengths sum to 4 ≠ 3. -/
theorem c4_partition_violated_in_reachable_state :
    alloc (new 3 ()) = .ok chain1 0 ∧ alloc chain1 = .ok chain2 1 ∧
    alloc chain2 = .ok chain3 2 ∧ free chain3 0 = .ok chain4 () ∧
    free chain4 1 = .ok chain5 () ∧
    freeChain chain5 4 = some [1, 0, 2] ∧ iterFrom chain5 2 = some [2] ∧
    chain5.size = 1 ∧ chain5.items.length = 3 ∧
    2 ∈ [1, 0, 2] ∧ 2 ∈ [2] ∧ [1, 0, 2].length + [2].length = 4 := by
  refine ⟨rfl, rfl, rfl, rfl, rfl, rfl, rfl, rfl, rfl, ?_, ?_, rfl⟩
  · decide
  · decide

/-- **C5** (confirmed). On a fresh pool of any capacity `≥ 3`: three
allocations return slots 0, 1, 2; iteration then yields exactly `[0, 1, 2]`
(allocation order); releasing the middle slot `1` succeeds and iteration
then yields exactly `[0, 2]`. -/
theorem c5_insertion_order_iteration (cap : Nat) (d : α) (h3 : 3 ≤ cap) :
    alloc (new cap d) = .ok (stK cap d 1) 0 ∧
    alloc (stK cap d 1) = .ok (stK cap d 2) 1 ∧
    alloc (stK cap d 2) = .ok (stK cap d 3) 2 ∧
    IterYields (stK cap d 3) [0, 1, 2] ∧
    (∀ L, IterYields (stK cap d 3) L → L = [0, 1, 2]) ∧
    free (stK cap d 3) 1 = .ok (stMid cap d) () ∧
    IterYields (stMid cap d) [0, 2] ∧
    (∀ L, IterYields (stMid cap d) L → L = [0, 2]) := by
  refine ⟨?_, alloc_stK cap d 1 (by omega), alloc_stK cap d 2 (by omega),
    ⟨4, iter_stK3 cap d h3⟩, ?_, free_stK3 cap d h3, ⟨3, iter_stMid cap d h3⟩, ?_⟩
  · rw [← stK_zero cap d]
    exact alloc_stK cap d 0 (by omega)
  · intro L hL
    exact iterYields_unique _ hL ⟨4, iter_stK3 cap d h3⟩
  · intro L hL
    exact iterYields_unique _ hL ⟨3, iter_stMid cap d h3⟩

/-- Witness for C5 at the concrete capacity 3. -/
theorem c5_insertion_order_iteration_witness :
    alloc (new 3 ()) = .ok (stK 3 () 1) 0 ∧
    alloc (stK 3 () 1) = .ok (stK 3 () 2) 1 ∧
    alloc (stK 3 () 2) = .ok (stK 3 () 3) 2 ∧
    IterYields (stK 3 () 3) [0, 1, 2] ∧
    (∀ L, IterYields (stK 3 () 3) L → L = [0, 1, 2]) ∧
    free (stK 3 () 3) 1 = .ok (stMid 3 ()) () ∧
    IterYields (stMid 3 ()) [0, 2] ∧
    (∀ L, IterYields (stMid 3 ()) L → L = [0, 2]) :=
  c5_insertion_order_iteration 3 () (by norm_num)

/-- **C6** (confirmed). From a fresh pool of capacity `N`, the first `N`
allocations succeed (the `k`-th returns slot `k-1`) and the `(N+1)`-th fails
with the pool-exhausted error; in general, `alloc` returns an error exactly
when `size` has reached the capacity (and that error is `"Pool empty!"` with
the state untouched). -/
theorem c6_capacity_bound (N : Nat) (d : α) :
    stK N d 0 = new N d ∧
    (∀ k, k < N → alloc (stK N d k) = .ok (stK N d (k + 1)) k) ∧
    alloc (stK N d N) = .err "Pool empty!" (stK N d N) ∧
    (∀ st : PoolState α, st.size ≤ st.items.length →
      ((∃ e stE, alloc st = .err e stE) ↔ st.size = st.items.length)) := by
  refine ⟨stK_zero N d, fun k hk => alloc_stK N d k hk, alloc_stK_full N d, ?_⟩
  intro st hle
  constructor
  · rintro ⟨e, stE, he⟩
    have := alloc_err_inversion st e stE he
    omega
  · intro hsz
    refine ⟨"Pool empty!", st, ?_⟩
    unfold alloc
    rw [if_pos (by omega)]

/-- Witness for C6 at the concrete capacity 2. -/
theorem c6_capacity_bound_witness :
    alloc (stK 2 () 0) = .ok (stK 2 () 1) 0 ∧
    alloc (stK 2 () 1) = .ok (stK 2 () 2) 1 ∧
    alloc (stK 2 () 2) = .err "Pool empty!" (stK 2 () 2) ∧
    ((∃ e stE, alloc (new 2 ()) = .err e stE) ↔
      (new 2 ()).size = (new 2 ()).items.length) :=
  ⟨(c6_capacity_bound 2 ()).2.1 0 (by norm_num),
   (c6_capacity_bound 2 ()).2.1 1 (by norm_num),
   (c6_capacity_bound 2 ()).2.2.1,
   (c6_capacity_bound 2 ()).2.2.2 (new 2 ()) (by decide)⟩

/-- **C7** (counterexample). The claim says an offset at or beyond the
capacity yields the invalid-reference error.  In the code only `si < 0` is
checked; an offset equal to the capacity reaches `self.prev[i]` out of
bounds and panics instead of returning the error. -/
theorem c7_beyond_capacity_panics :
    free (new 1 ()) 1 = .oob ∧ free (new 3 ()) 5 = .oob := by
  exact ⟨rfl, rfl⟩

/-- **C7** (amended). For a negative offset, `free` does return the
invalid-reference error and leaves the state untouched (provided the backing
store is non-empty, since the code first takes `&self.items[0]`). -/
theorem c7_negative_offset_invalid_reference (st : PoolState α) (si : Int)
    (h0 : st.items.length ≠ 0) (hneg : si < 0) :
    free st si = .err "Invalid item!" st := by
  unfold free
  rw [if_neg h0, if_pos hneg]

/-- Witness for the amended C7. -/
theorem c7_negative_offset_invalid_reference_witness :
    free (new 1 ()) (-1) = .err "Invalid item!" (new 1 ()) :=
  c7_negative_offset_invalid_reference (new 1 ()) (-1) (by decide) (by decide)

/-- **C8** (confirmed). Releasing a slot whose `prev` link is the sentinel
(i.e. a slot already on the free list, as the code detects it) is rejected
with the double-release error and the error return carries the pool state
unchanged; in particular, after any successful release, releasing the same
reference a second time is so rejected, leaving the post-release state
intact for subsequent allocations. -/
theorem c8_double_release_detected (α : Type) :
    (∀ (st st' : PoolState α) (si : Int), free st si = .ok st' () →
      free st' si = .err "Item already freed!" st') ∧
    (∀ (st : PoolState α) (si : Int) (p : Nat), st.items.length ≠ 0 →
      ¬ si < 0 → st.prev[si.toNat]? = some p → st.items.length ≤ p →
      free st si = .err "Item already freed!" st) := by
  constructor
  · intro st st' si h
    obtain ⟨hsi, h0, hsz, p, n, hp, hn, hpc, hpn, hnp, hst'⟩ :=
      free_ok_inversion st si st' h
    have hlt : si.toNat < st.prev.length := by
      obtain ⟨hlt, -⟩ := List.getElem?_eq_some.mp hp
      exact hlt
    have hitems : st'.items = st.items := by rw [hst']
    have hprev : st'.prev[si.toNat]? = some st.items.length := by
      rw [hst']
      exact List.getElem?_set_self (by simpa using hlt)
    unfold free
    rw [hitems, hprev, if_neg h0, if_neg (by omega : ¬ si < 0), Option.elim_some,
      if_pos (le_refl _)]
  · intro st si p h0 hsi hp hsent
    unfold free
    rw [if_neg h0, if_neg hsi, hp, Option.elim_some, if_pos hsent]

/-- Witness for C8: double release of the middle slot on a capacity-3 pool,
and the detection rule applied to the same already-freed slot. -/
theorem c8_double_release_detected_witness :
    free (stMid 3 ()) 1 = .err "Item already freed!" (stMid 3 ()) ∧
    free (new 2 ()) 0 = .err "Item already freed!" (new 2 ()) :=
  ⟨(c8_double_release_detected Unit).1 (stK 3 () 3) (stMid 3 ()) 1 (by decide),
   (c8_double_release_detected Unit).2 (new 2 ()) 0 2 (by decide) (by decide)
     (by decide) (by decide)⟩

/-- **C9** (confirmed). `Clear` brings the pool to the state of a freshly
constructed pool of the same capacity, except that the elements are the old
elements passed through the reset capability instead of default-constructed;
and (for an idempotent reset, as resetting to a default is) `Clear` is
idempotent. -/
theorem c9_clear_equals_fresh (st : PoolState α) (cf : α → α) (d : α)
    (hp : st.prev.length = st.items.length)
    (hn : st.next.length = st.items.length) :
    clearPool cf st = { new st.items.length d with items := st.items.map cf } ∧
    ((∀ a, cf (cf a) = cf a) →
      clearPool cf (clearPool cf st) = clearPool cf st) := by
  constructor
  · unfold clearPool new
    refine PoolState.mk.injEq .. |>.mpr ⟨rfl, ?_, ?_, rfl, rfl, rfl, rfl⟩
    · rw [List.map_const', hp]
    · rw [hn]
  · intro hid
    unfold clearPool
    refine PoolState.mk.injEq .. |>.mpr ⟨?_, ?_, ?_, rfl, rfl, rfl, rfl⟩
    · rw [List.map_map]
      exact List.map_congr_left fun a _ => hid a
    · rw [List.map_map, List.length_map]
      exact List.map_congr_left fun a _ => rfl
    · rw [List.length_map, List.length_range]

/-- Witness for C9 on a concrete string pool with the name-clearing reset. -/
theorem c9_clear_equals_fresh_witness :
    clearPool (fun _ => "") tomPool =
      { new tomPool.items.length "x" with items := tomPool.items.map (fun _ => "") } ∧
    ((∀ a : String, (fun _ => "") ((fun _ => "") a) = (fun _ => "") a) →
      clearPool (fun _ => "") (clearPool (fun _ => "") tomPool) =
        clearPool (fun _ => "") tomPool) :=
  c9_clear_equals_fresh tomPool (fun _ => "") "x" (by decide) (by decide)

/-- **C10** (counterexample). The claim says that in every reachable
non-panicking state a slot is on the free list iff its `prev` is the
sentinel.  The `Ok`-only corruption chain of C4 produces a reachable state
whose free chain `[1, 0, 2]` contains slot `2` while `prev[2] = 0`, not the
sentinel `3`. -/
theorem c10_sentinel_not_iff_free_membership :
    alloc (new 3 ()) = .ok chain1 0 ∧ alloc chain1 = .ok chain2 1 ∧
    alloc chain2 = .ok chain3 2 ∧ free chain3 0 = .ok chain4 () ∧
    free chain4 1 = .ok chain5 () ∧
    freeChain chain5 4 = some [1, 0, 2] ∧ 2 ∈ [1, 0, 2] ∧
    chain5.prev[2]? = some 0 ∧ chain5.items.length = 3 := by
  refine ⟨rfl, rfl, rfl, rfl, rfl, rfl, ?_, rfl, rfl⟩
  decide

/-- **C10** (amended). What the `prev` discipline really guarantees: the
constructor and `Clear` set every `prev` to the sentinel; a successful
`free` sets the released slot's `prev` to the sentinel; a successful `alloc`
sets the allocated slot's `prev` to the old `last` (the previous live tail,
possibly the slot's own index) — but sentinel-ness of `prev` is not
equivalent to free-list membership in all reachable states. -/
theorem c10_prev_link_discipline (α : Type) :
    (∀ (cap : Nat) (d : α) (i : Nat), i < cap → (new cap d).prev[i]? = some cap) ∧
    (∀ (st : PoolState α) (cf : α → α) (i : Nat), i < st.prev.length →
      (clearPool cf st).prev[i]? = some st.items.length) ∧
    (∀ (st : PoolState α) (si : Int) (st' : PoolState α),
      free st si = .ok st' () → st'.prev[si.toNat]? = some st.items.length) ∧
    (∀ (st st' : PoolState α) (idx : Nat), alloc st = .ok st' idx →
      st'.prev[idx]? = some st.last ∧ st.last < st.next.length) := by
  refine ⟨?_, ?_, ?_, ?_⟩
  · intro cap d i hi
    unfold new
    rw [List.getElem?_replicate, if_pos hi]
  · intro st cf i hi
    unfold clearPool
    rw [List.getElem?_map, List.getElem?_eq_getElem hi, Option.map_some']
  · intro st si st' h
    obtain ⟨hsi, h0, hsz, p, n, hp, hn, hpc, hpn, hnp, hst'⟩ :=
      free_ok_inversion st si st' h
    have hlt : si.toNat < st.prev.length := by
      obtain ⟨hlt, -⟩ := List.getElem?_eq_some.mp hp
      exact hlt
    rw [hst']
    exact List.getElem?_set_self (by simpa using hlt)
  · intro st st' idx h
    obtain ⟨hidx, hsz, hffp, hln, hffi, nx, hnx, hst'⟩ :=
      alloc_ok_inversion st st' idx h
    subst hidx
    refine ⟨?_, hln⟩
    rw [hst']
    exact List.getElem?_set_self hffp

/-- Witness for the amended C10, one instantiation per conjunct. -/
theorem c10_prev_link_discipline_witness :
    (new 2 ()).prev[0]? = some 2 ∧
    (clearPool id chain5).prev[1]? = some chain5.items.length ∧
    (stMid 3 ()).prev[(1 : Int).toNat]? = some (stK 3 () 3).items.length ∧
    (chain1.prev[0]? = some (new 3 ()).last ∧
      (new 3 ()).last < (new 3 ()).next.length) :=
  ⟨(c10_prev_link_discipline Unit).1 2 () 0 (by norm_num),
   (c10_prev_link_discipline Unit).2.1 chain5 id 1 (by decide),
   (c10_prev_link_discipline Unit).2.2.1 (stK 3 () 3) 1 (stMid 3 ()) (by decide),
   (c10_prev_link_discipline Unit).2.2.2 (new 3 ()) chain1 0 (by decide)⟩


end CellPool

